import Mathlib

/-!
Verification of the mmap-wrapper crate.

The crate exposes a typed view over a fixed-size file-backed memory mapping.
It has two backends:

* a direct syscall backend (`src/no_std.rs`): `open` + `ftruncate` + `mmap`
  through `extern "C"` declarations, holding the raw mapped pointer;
* a delegated backend (`src/lib.rs`, `src/memmap2.rs`): wrapping regions
  obtained from the external `memmap2` mapping capability, in `src/memmap2.rs`
  behind `Arc` for reference-counted sharing.

The syscall layer (an external collaborator of the crate) is modelled as a
small operating-system state with an event trace; the crate's functions are
translated statement by statement and thread this state explicitly.
-/

namespace MmapVerify

/-- Syscall events recorded by the operating-system model, with their
arguments and return values.  `eMmap`'s result is `none` when the call
returns the `MAP_FAILED` sentinel, `some addr` otherwise. -/
inductive Event where
  | eOpen (path : String) (flags : Nat) (mode : Nat) (ret : Int)
  | eTrunc (fd : Int) (len : Nat) (ret : Int)
  | eMmap (len : Nat) (prot : Nat) (flags : Nat) (fd : Int) (ret : Option Nat)
  | eClose (fd : Int) (ret : Int)
  | eMunmap (addr : Nat) (len : Nat) (ret : Int)
deriving DecidableEq

/-- A live memory mapping: base address, length, protection bits and the
path of the backing file (the crate only creates `MAP_SHARED` file-backed
mappings). -/
structure Mapping where
  addr : Nat
  len : Nat
  prot : Nat
  backing : String
deriving DecidableEq

/-- State of the modelled operating system: files (path to byte list), open
descriptors (fd to backing path and whether the descriptor was opened with
write access), live mappings, allocation counters, the syscall trace, and
fault oracles.  Each syscall consumes the head of its fault list; a `some e`
head makes the call fail returning `e`, `none` (or an exhausted list) lets
it follow its normal semantics.  The oracles stand for the environment
(permissions, resource limits, ...) that can make a real call fail beyond
the deterministic POSIX failure conditions modelled directly. -/
structure World where
  files : List (String × List Nat)
  fds : List (Int × (String × Bool))
  maps : List Mapping
  nextFd : Int
  nextAddr : Nat
  trace : List Event
  openFaults : List (Option Int)
  truncFaults : List (Option Int)
  mmapFaults : List Bool
deriving DecidableEq

/-- Build an initial world: no open descriptors, no mappings, given files and
fault oracles.  Descriptors are allocated from 3, addresses from 4096. -/
def mkWorld (files : List (String × List Nat)) (openF truncF : List (Option Int))
    (mmapF : List Bool) : World :=
  ⟨files, [], [], 3, 4096, [], openF, truncF, mmapF⟩

/-- A fresh fault-free world with no files. -/
def freshWorld : World := mkWorld [] [] [] []

/-- Flag and protection constants from `src/no_std.rs` lines 9-15. -/
def O_RDONLY : Nat := 0

def O_RDWR : Nat := 2

def O_CREAT : Nat := 64

def PROT_READ : Nat := 1

def PROT_WRITE : Nat := 2

def MAP_SHARED : Nat := 1

/-- Replace the byte contents of file `p` in a file table. -/
def updateFile (files : List (String × List Nat)) (p : String) (d : List Nat) :
    List (String × List Nat) :=
  files.map fun q => if q.1 = p then (p, d) else q

/-- POSIX `open(path, flags, mode)` (spec section 6 capability interface):
opening an existing path yields a fresh descriptor; a missing path is
created empty when the `O_CREAT` bit (bit 6) is set, otherwise the call
fails returning `-1`.  The descriptor records whether it was opened with
write access (access-mode bits `flags & 3`: `O_RDONLY = 0`, `O_RDWR = 2`).
A fault-oracle entry `some e` makes the call return `e` instead. -/
def sysOpen (w : World) (path : String) (flags : Nat) (mode : Nat) : Int × World :=
  let fault := w.openFaults.headD none
  let rest := w.openFaults.tail
  let wr := Nat.land flags 3 != 0
  match fault with
  | some e =>
      (e, { w with openFaults := rest,
                   trace := w.trace ++ [Event.eOpen path flags mode e] })
  | none =>
      if (List.lookup path w.files).isSome then
        (w.nextFd, { w with fds := (w.nextFd, (path, wr)) :: w.fds,
                            nextFd := w.nextFd + 1,
                            openFaults := rest,
                            trace := w.trace ++ [Event.eOpen path flags mode w.nextFd] })
      else if Nat.testBit flags 6 then
        (w.nextFd, { w with files := (path, []) :: w.files,
                            fds := (w.nextFd, (path, wr)) :: w.fds,
                            nextFd := w.nextFd + 1,
                            openFaults := rest,
                            trace := w.trace ++ [Event.eOpen path flags mode w.nextFd] })
      else
        (-1, { w with openFaults := rest,
                      trace := w.trace ++ [Event.eOpen path flags mode (-1)] })

/-- POSIX `ftruncate(fd, len)`: resizes the file behind a valid descriptor
open for writing to exactly `len` bytes, zero-filling any extension; fails
with `-1` on an invalid descriptor (EBADF) or on a descriptor not open for
writing (EINVAL), or with `e` under a fault-oracle entry `some e`. -/
def sysFtruncate (w : World) (fd : Int) (len : Nat) : Int × World :=
  let fault := w.truncFaults.headD none
  let rest := w.truncFaults.tail
  match fault with
  | some e =>
      (e, { w with truncFaults := rest,
                   trace := w.trace ++ [Event.eTrunc fd len e] })
  | none =>
      match List.lookup fd w.fds with
      | none =>
          (-1, { w with truncFaults := rest,
                        trace := w.trace ++ [Event.eTrunc fd len (-1)] })
      | some pw =>
          if pw.2 then
            let d := (List.lookup pw.1 w.files).getD []
            let d2 := d.take len ++ List.replicate (len - d.length) 0
            (0, { w with files := updateFile w.files pw.1 d2,
                         truncFaults := rest,
                         trace := w.trace ++ [Event.eTrunc fd len 0] })
          else
            (-1, { w with truncFaults := rest,
                          trace := w.trace ++ [Event.eTrunc fd len (-1)] })

/-- POSIX `mmap(0, len, prot, flags, fd, 0)`: on a valid descriptor and a
positive length, installs a new mapping at a fresh address (mapping past the
end of the file is allowed; only access would fault); returns the
`MAP_FAILED` sentinel (`none`) for a zero length (EINVAL), an invalid
descriptor (EBADF), a `PROT_WRITE` shared mapping requested on a descriptor
not open for writing (EACCES), or under a `true` fault-oracle entry. -/
def sysMmap (w : World) (len : Nat) (prot : Nat) (flags : Nat) (fd : Int) :
    Option Nat × World :=
  let fault := w.mmapFaults.headD false
  let rest := w.mmapFaults.tail
  if fault then
    (none, { w with mmapFaults := rest,
                    trace := w.trace ++ [Event.eMmap len prot flags fd none] })
  else if len = 0 then
    (none, { w with mmapFaults := rest,
                    trace := w.trace ++ [Event.eMmap len prot flags fd none] })
  else
    match List.lookup fd w.fds with
    | none =>
        (none, { w with mmapFaults := rest,
                        trace := w.trace ++ [Event.eMmap len prot flags fd none] })
    | some pw =>
        if Nat.testBit prot 1 && (flags == MAP_SHARED) && !pw.2 then
          (none, { w with mmapFaults := rest,
                          trace := w.trace ++ [Event.eMmap len prot flags fd none] })
        else
          (some w.nextAddr,
           { w with maps := ⟨w.nextAddr, len, prot, pw.1⟩ :: w.maps,
                    nextAddr := w.nextAddr + len,
                    mmapFaults := rest,
                    trace := w.trace ++ [Event.eMmap len prot flags fd (some w.nextAddr)] })

/-- POSIX `close(fd)`: removes a valid descriptor, fails with `-1`
otherwise. -/
def sysClose (w : World) (fd : Int) : Int × World :=
  if (List.lookup fd w.fds).isSome then
    (0, { w with fds := w.fds.filter fun q => !(q.1 == fd),
                 trace := w.trace ++ [Event.eClose fd 0] })
  else
    (-1, { w with trace := w.trace ++ [Event.eClose fd (-1)] })

/-- POSIX `munmap(addr, len)`: removes the live mapping based at `addr`;
unmapping an address with no live mapping fails with `-1` (EINVAL). -/
def sysMunmap (w : World) (addr : Nat) (len : Nat) : Int × World :=
  if w.maps.any fun m => m.addr == addr then
    (0, { w with maps := w.maps.filter fun m => !(m.addr == addr),
                 trace := w.trace ++ [Event.eMunmap addr len 0] })
  else
    (-1, { w with trace := w.trace ++ [Event.eMunmap addr len (-1)] })

namespace NoStd

/-- `MmapWrapper<T>` from `src/no_std.rs`: holds the raw mapped pointer
(`raw : *mut c_void`; address `0` is the null pointer).  The phantom type
parameter `T` enters only through `size_of::<T>()`, carried here as an
explicit `tsz` argument to the functions. -/
structure MmapWrapper where
  raw : Nat
deriving DecidableEq

/-- `MmapMutWrapper<T>` from `src/no_std.rs`: identical layout, mutable
accessor. -/
structure MmapMutWrapper where
  raw : Nat
deriving DecidableEq

/-- Tail of `MmapWrapper::map` after the optional truncation
(`src/no_std.rs` lines 162-183): choose the protection from the write flag,
call `mmap(null, size_of::<T>(), prot, MAP_SHARED, fd, 0)`; on the
`MAP_FAILED` sentinel close the descriptor and return `Err(-1)`, otherwise
return the mapped address.  The successful return does not close `fd`. -/
def mapMmapPart (tsz : Nat) (write : Bool) (fd : Int) (w : World) :
    Except Int Nat × World :=
  let mmap_prot := if write then Nat.lor PROT_READ PROT_WRITE else PROT_READ
  let r := sysMmap w tsz mmap_prot MAP_SHARED fd
  match r.1 with
  | none =>
      let c := sysClose r.2 fd
      (Except.error (-1), c.2)
  | some mapped_region => (Except.ok mapped_region, r.2)

/-- `MmapWrapper::map(path, write, truncate)` from `src/no_std.rs` lines
145-184: `open(path, O_CREAT | (if write then O_RDWR else O_RDONLY), 0o644)`;
a negative descriptor is returned as the error; if `truncate` is set,
`ftruncate(fd, size_of::<T>())`, closing `fd` and returning the negative
result on failure; then the mmap tail `mapMmapPart`. -/
def map (tsz : Nat) (path : String) (write truncate : Bool) (w : World) :
    Except Int Nat × World :=
  let flag := if write then O_RDWR else O_RDONLY
  let o := sysOpen w path (Nat.lor O_CREAT flag) 420
  let fd := o.1
  if fd < 0 then
    (Except.error fd, o.2)
  else if truncate then
    let t := sysFtruncate o.2 fd tsz
    if t.1 < 0 then
      let c := sysClose t.2 fd
      (Except.error t.1, c.2)
    else
      mapMmapPart tsz write fd t.2
  else
    mapMmapPart tsz write fd o.2

/-- `MmapWrapper::new` (`src/no_std.rs` lines 186-191): wrap the mapped
address returned by `map`, propagating its error. -/
def new (tsz : Nat) (path : String) (write truncate : Bool) (w : World) :
    Except Int MmapWrapper × World :=
  match map tsz path write truncate w with
  | (Except.error e, w2) => (Except.error e, w2)
  | (Except.ok a, w2) => (Except.ok ⟨a⟩, w2)

/-- `Drop for MmapWrapper` (`src/no_std.rs` lines 272-280): if `raw` is not
null, `munmap(raw, size_of::<T>())`. -/
def dropWrapper (tsz : Nat) (m : MmapWrapper) (w : World) : World :=
  if m.raw ≠ 0 then (sysMunmap w m.raw tsz).2 else w

/-- `Drop for MmapMutWrapper` (`src/no_std.rs` lines 282-290): same as
`dropWrapper`. -/
def dropMutWrapper (tsz : Nat) (m : MmapMutWrapper) (w : World) : World :=
  if m.raw ≠ 0 then (sysMunmap w m.raw tsz).2 else w

/-- `MmapWrapper::make_mut(self)` (`src/no_std.rs` lines 193-199): builds an
`MmapMutWrapper` from the copied field `self.raw`.  The function consumes
`self` by value; `raw` is a `Copy` pointer, so reading it leaves `self`
intact, and Rust drops the consumed `self` when the function returns, which
runs `Drop for MmapWrapper` — the second component below. -/
def makeMut (tsz : Nat) (m : MmapWrapper) (w : World) : MmapMutWrapper × World :=
  let result : MmapMutWrapper := ⟨m.raw⟩
  (result, dropWrapper tsz m w)

/-- `MmapMutWrapper::new` (`src/no_std.rs` lines 219-224): wraps
`MmapWrapper::<T>::map` directly. -/
def newMut (tsz : Nat) (path : String) (write truncate : Bool) (w : World) :
    Except Int MmapMutWrapper × World :=
  match map tsz path write truncate w with
  | (Except.error e, w2) => (Except.error e, w2)
  | (Except.ok a, w2) => (Except.ok ⟨a⟩, w2)

/-- `MmapWrapper::get_inner` (`src/no_std.rs` lines 213-215): the returned
`&T` is the raw pointer reinterpreted, i.e. the mapped address. -/
def getInner (m : MmapWrapper) : Nat := m.raw

/-- `MmapMutWrapper::get_inner` (`src/no_std.rs` lines 238-240): the
returned `&mut T` is the raw pointer reinterpreted. -/
def getInnerMut (m : MmapMutWrapper) : Nat := m.raw

/-- `MmapWrapperBuilder` (`src/no_std.rs` lines 121-126): path plus `write`
and `truncate` flags. -/
structure MmapWrapperBuilder where
  path : String
  write : Bool
  truncate : Bool
deriving DecidableEq

/-- `MmapWrapperBuilder::new` (`src/no_std.rs` lines 244-251): both flags
default to `false`. -/
def MmapWrapperBuilder.mk0 (path : String) : MmapWrapperBuilder :=
  ⟨path, false, false⟩

/-- Chained setter `write` of the builder (`src/no_std.rs` lines 253-256). -/
def MmapWrapperBuilder.setWrite (b : MmapWrapperBuilder) (v : Bool) :
    MmapWrapperBuilder :=
  { b with write := v }

/-- Chained setter `truncate` of the builder (`src/no_std.rs` lines
258-261). -/
def MmapWrapperBuilder.setTruncate (b : MmapWrapperBuilder) (v : Bool) :
    MmapWrapperBuilder :=
  { b with truncate := v }

/-- `MmapWrapperBuilder::build` (`src/no_std.rs` lines 263-265). -/
def MmapWrapperBuilder.build (tsz : Nat) (b : MmapWrapperBuilder) (w : World) :
    Except Int MmapWrapper × World :=
  new tsz b.path b.write b.truncate w

/-- `MmapWrapperBuilder::build_mut` (`src/no_std.rs` lines 267-269). -/
def MmapWrapperBuilder.buildMut (tsz : Nat) (b : MmapWrapperBuilder) (w : World) :
    Except Int MmapMutWrapper × World :=
  newMut tsz b.path b.write b.truncate w

end NoStd

namespace Memmap2

/-- A region handle of the external `memmap2` mapping capability
(`memmap2::Mmap` / `memmap2::MmapMut`): base address and length of an
already-established mapping.  Dropping the handle unmaps the region. -/
structure Region where
  addr : Nat
  len : Nat
deriving DecidableEq

/-- Heap of `std::sync::Arc` cells used by `src/memmap2.rs`, modelled from
the documented semantics of `Arc`: each cell holds a strong count and the
inner region; `clone` increments the count, dropping an owner decrements it
and drops the inner value (unmapping the region) when it reaches zero.
`released` records each region whose inner value was dropped, in order. -/
structure ArcHeap where
  cells : List (Nat × (Nat × Region))
  nextId : Nat
  released : List Region
deriving DecidableEq

/-- The empty Arc heap. -/
def emptyHeap : ArcHeap := ⟨[], 0, []⟩

/-- `Arc::new`: allocate a cell with strong count 1. -/
def arcNew (h : ArcHeap) (v : Region) : Nat × ArcHeap :=
  (h.nextId, { h with cells := (h.nextId, (1, v)) :: h.cells, nextId := h.nextId + 1 })

/-- `Arc::clone`: increment the strong count of the cell. -/
def arcClone (h : ArcHeap) (id : Nat) : ArcHeap :=
  { h with cells := h.cells.map fun e => if e.1 == id then (e.1, (e.2.1 + 1, e.2.2)) else e }

/-- Dropping one `Arc` owner: decrement the strong count; at zero, remove
the cell and drop the inner region (recorded in `released`). -/
def arcDrop (h : ArcHeap) (id : Nat) : ArcHeap :=
  match List.lookup id h.cells with
  | none => h
  | some cv =>
      if cv.1 ≤ 1 then
        { h with cells := h.cells.filter fun e => !(e.1 == id),
                 released := h.released ++ [cv.2] }
      else
        { h with cells := h.cells.map fun e => if e.1 == id then (e.1, (cv.1 - 1, cv.2)) else e }

/-- `MmapWrapper<T>` from `src/memmap2.rs` lines 42-45: `raw : Arc<Mmap>`,
modelled as the id of the Arc cell. -/
structure MmapWrapper where
  rawId : Nat
deriving DecidableEq

/-- `MmapMutWrapper<T>` from `src/memmap2.rs` lines 93-96:
`raw : Arc<MmapMut>`. -/
structure MmapMutWrapper where
  rawId : Nat
deriving DecidableEq

/-- `MmapWrapper::new(m)` (`src/memmap2.rs` lines 123-130): wrap the region
in a fresh `Arc`. -/
def new (h : ArcHeap) (m : Region) : MmapWrapper × ArcHeap :=
  let r := arcNew h m
  (⟨r.1⟩, r.2)

/-- `Clone for MmapWrapper` (`src/memmap2.rs` lines 47-54):
`raw: self.raw.clone()`. -/
def clone (h : ArcHeap) (w : MmapWrapper) : MmapWrapper × ArcHeap :=
  (⟨w.rawId⟩, arcClone h w.rawId)

/-- `MmapWrapper::get_inner` (`src/memmap2.rs` lines 132-134): the returned
reference is `self.raw.as_ptr()` cast, i.e. the base address of the shared
region. -/
def getInner (h : ArcHeap) (w : MmapWrapper) : Nat :=
  ((List.lookup w.rawId h.cells).map fun cv => cv.2.addr).getD 0

/-- Dropping an `MmapWrapper` (`src/memmap2.rs` has no explicit `Drop`; the
field drop of `raw : Arc<Mmap>` runs): one `Arc` owner goes away. -/
def dropWrapper (h : ArcHeap) (w : MmapWrapper) : ArcHeap :=
  arcDrop h w.rawId

/-- `MmapMutWrapper::new(m)` (`src/memmap2.rs` lines 141-146). -/
def newMut (h : ArcHeap) (m : Region) : MmapMutWrapper × ArcHeap :=
  let r := arcNew h m
  (⟨r.1⟩, r.2)

/-- `Clone for MmapMutWrapper` (`src/memmap2.rs` lines 98-105). -/
def cloneMut (h : ArcHeap) (w : MmapMutWrapper) : MmapMutWrapper × ArcHeap :=
  (⟨w.rawId⟩, arcClone h w.rawId)

/-- `MmapMutWrapper::get_inner` (`src/memmap2.rs` lines 148-150): the
returned `&mut T` is `self.raw.as_ptr().cast_mut()` cast, i.e. the base
address of the shared region. -/
def getInnerMut (h : ArcHeap) (w : MmapMutWrapper) : Nat :=
  ((List.lookup w.rawId h.cells).map fun cv => cv.2.addr).getD 0

/-- Dropping an `MmapMutWrapper`: the field drop of `raw : Arc<MmapMut>`
runs. -/
def dropMutWrapper (h : ArcHeap) (w : MmapMutWrapper) : ArcHeap :=
  arcDrop h w.rawId

/-- Iterated cloning through `Clone for MmapWrapper`: heap after `k`
successive clones of `w` (all clone values equal `⟨w.rawId⟩`). -/
def cloneN (w : MmapWrapper) (h : ArcHeap) : Nat → ArcHeap
  | 0 => h
  | k + 1 => (clone (cloneN w h k) w).2

/-- Iterated dropping of clones of `w` (each clone is the value
`⟨w.rawId⟩`, so dropping any `k` of them is `k` successive owner drops). -/
def dropN (w : MmapWrapper) (h : ArcHeap) : Nat → ArcHeap
  | 0 => h
  | k + 1 => dropWrapper (dropN w h k) w

end Memmap2

namespace LibStd

/-- `MmapWrapper<T>` from `src/lib.rs` lines 92-95: holds a `memmap2::Mmap`
region directly (single owner, no `Arc`). -/
structure MmapWrapper where
  raw : Memmap2.Region
deriving DecidableEq

/-- `MmapMutWrapper<T>` from `src/lib.rs` lines 133-136. -/
structure MmapMutWrapper where
  raw : Memmap2.Region
deriving DecidableEq

/-- `MmapWrapper::make_mut(self)` (`src/lib.rs` lines 160-165): delegates to
the external capability `Mmap::make_mut` (the `escalate` parameter, which
re-maps the region with write permission and may fail with an OS error) and
propagates its error with `?`. -/
def makeMut (escalate : Memmap2.Region → Except Int Memmap2.Region)
    (m : MmapWrapper) : Except Int MmapMutWrapper :=
  match escalate m.raw with
  | Except.error e => Except.error e
  | Except.ok r => Except.ok ⟨r⟩

/-- `MmapMutWrapper::get_inner` (`src/lib.rs` lines 188-190): the returned
`&mut T` is `self.raw.as_mut_ptr()` cast, i.e. the region's base address. -/
def getInnerMut (m : MmapMutWrapper) : Nat := m.raw.addr

end LibStd

/-- Typed store seen through a mapped address: writing value `v` of the
target type `T` at address `a` (what storing through a `&mut T` obtained
from `get_inner` does under `MAP_SHARED`). -/
def memWrite {α : Type} (mem : Nat → α) (a : Nat) (v : α) : Nat → α :=
  fun x => if x = a then v else mem x

/-- Reading the typed value at address `a` (what loading through a reference
obtained from `get_inner` does). -/
def memRead {α : Type} (mem : Nat → α) (a : Nat) : α := mem a

/-- Number of `munmap` events for address `addr` in a trace. -/
def munmapCount (tr : List Event) (addr : Nat) : Nat :=
  (tr.filter fun e =>
    match e with
    | Event.eMunmap a _ _ => a == addr
    | _ => false).length

/-- Number of `close` events in a trace. -/
def closeCount (tr : List Event) : Nat :=
  (tr.filter fun e =>
    match e with
    | Event.eClose _ _ => true
    | _ => false).length

/-- Number of `mmap` events in a trace. -/
def mmapEventCount (tr : List Event) : Nat :=
  (tr.filter fun e =>
    match e with
    | Event.eMmap _ _ _ _ _ => true
    | _ => false).length

/-- Number of `ftruncate` events in a trace. -/
def truncEventCount (tr : List Event) : Nat :=
  (tr.filter fun e =>
    match e with
    | Event.eTrunc _ _ _ => true
    | _ => false).length

/-- Decidable equality on `Except`, for evaluating the embedded functions at
concrete inputs. -/
instance {ε α : Type} [DecidableEq ε] [DecidableEq α] : DecidableEq (Except ε α)
  | Except.error a, Except.error b => decidable_of_iff (a = b) (by simp)
  | Except.error _, Except.ok _ => isFalse (by simp)
  | Except.ok _, Except.error _ => isFalse (by simp)
  | Except.ok a, Except.ok b => decidable_of_iff (a = b) (by simp)

/-- On a fresh fault-free world, `MmapWrapper::map` succeeds for every path
and every flag combination that does not request truncation through a
read-only descriptor (a truncate request needs the write flag, since
`ftruncate` on a descriptor not open for writing fails), with the exact
syscall trace and final state: the file is created (`O_CREAT` is always
passed), truncated to `tsz` zero bytes exactly when `truncate` is set, and
mapped with length `tsz`, protection derived from `write`, and
`MAP_SHARED`; the descriptor stays open. -/
theorem NoStd.map_fresh_eq (tsz : Nat) (path : String) (write truncate : Bool)
    (h : 0 < tsz) (htw : truncate = true → write = true) :
    NoStd.map tsz path write truncate freshWorld =
      (Except.ok 4096,
       { files := [(path, if truncate then List.replicate tsz 0 else [])],
         fds := [(3, (path, write))],
         maps := [⟨4096, tsz, if write then 3 else 1, path⟩],
         nextFd := 4,
         nextAddr := 4096 + tsz,
         trace := [Event.eOpen path (if write then 66 else 64) 420 3] ++
                  (if truncate then [Event.eTrunc 3 tsz 0] else []) ++
                  [Event.eMmap tsz (if write then 3 else 1) 1 3 (some 4096)],
         openFaults := [],
         truncFaults := [],
         mmapFaults := [] }) := by
  have htsz : tsz ≠ 0 := Nat.pos_iff_ne_zero.mp h
  have h1 : Nat.lor 64 0 = 64 := by decide
  have h2 : Nat.lor 64 2 = 66 := by decide
  have h3 : Nat.lor 1 2 = 3 := by decide
  have h4 : Nat.testBit 64 6 = true := by decide
  have h5 : Nat.testBit 66 6 = true := by decide
  have h6 : (Nat.land 64 3 != 0) = false := by decide
  have h7 : (Nat.land 66 3 != 0) = true := by decide
  have h8 : Nat.testBit 1 1 = false := by decide
  have h9 : Nat.testBit 3 1 = true := by decide
  cases truncate
  · cases write <;>
      simp [NoStd.map, NoStd.mapMmapPart, sysOpen, sysFtruncate, sysMmap,
        freshWorld, mkWorld, updateFile, O_CREAT, O_RDWR, O_RDONLY,
        PROT_READ, PROT_WRITE, MAP_SHARED, List.lookup, htsz,
        h1, h2, h3, h4, h5, h6, h7, h8, h9]
  · rw [htw rfl]
    simp [NoStd.map, NoStd.mapMmapPart, sysOpen, sysFtruncate, sysMmap,
      freshWorld, mkWorld, updateFile, O_CREAT, O_RDWR, O_RDONLY,
      PROT_READ, PROT_WRITE, MAP_SHARED, List.lookup, htsz,
      h1, h2, h3, h4, h5, h6, h7, h8, h9]

/-- On a fresh fault-free world, requesting truncation without the write
flag makes `map` fail with `Err(-1)`: the file is opened read-only, so the
`ftruncate` call fails deterministically and its negative return value is
propagated after closing the descriptor. -/
theorem NoStd.map_fresh_ro_trunc_fails (tsz : Nat) (path : String) :
    (NoStd.map tsz path false true freshWorld).1 = Except.error (-1) := by
  have h1 : Nat.lor 64 0 = 64 := by decide
  have h4 : Nat.testBit 64 6 = true := by decide
  have h6 : (Nat.land 64 3 != 0) = false := by decide
  simp [NoStd.map, NoStd.mapMmapPart, sysOpen, sysFtruncate, sysClose,
    freshWorld, mkWorld, O_CREAT, O_RDONLY, List.lookup, h1, h4, h6]

/-- C1: the claim says every accessor releases its region exactly once, and
in particular `make_mut` followed by dropping the mutable accessor releases
the shared region exactly once and the mutable accessor never sees an
already-unmapped region.  Evaluating the `no_std` backend at a concrete
input refutes this: after a successful `new`, `make_mut` itself already
unmaps the region (the consumed `self` is dropped, running
`Drop for MmapWrapper`), so the returned mutable wrapper holds a dangling
address with no live mapping, and dropping it issues a second `munmap` on
the same address — two `munmap` events in the lifetime instead of one. -/
theorem c1_make_mut_double_release :
    (NoStd.new 16 "f" true true freshWorld).1 = Except.ok ⟨4096⟩ ∧
    (NoStd.makeMut 16 ⟨4096⟩ (NoStd.new 16 "f" true true freshWorld).2).1 = ⟨4096⟩ ∧
    (NoStd.makeMut 16 ⟨4096⟩ (NoStd.new 16 "f" true true freshWorld).2).2.maps = [] ∧
    munmapCount
      (NoStd.makeMut 16 ⟨4096⟩ (NoStd.new 16 "f" true true freshWorld).2).2.trace
      4096 = 1 ∧
    munmapCount
      (NoStd.dropMutWrapper 16
        (NoStd.makeMut 16 ⟨4096⟩ (NoStd.new 16 "f" true true freshWorld).2).1
        (NoStd.makeMut 16 ⟨4096⟩ (NoStd.new 16 "f" true true freshWorld).2).2).trace
      4096 = 2 := by
  decide

/-- C2: the claim says the direct syscall backend closes the opened
descriptor after a successful mapping, at latest before the accessor's
lifetime ends, and never leaks it.  Evaluating the code at a concrete input
refutes this: a successful `new` performs no `close` call, and even after
the accessor is dropped the trace still holds no `close` event and the
descriptor is still registered as open — the descriptor is leaked. -/
theorem c2_fd_never_closed :
    (NoStd.new 16 "f" true true freshWorld).1 = Except.ok ⟨4096⟩ ∧
    closeCount (NoStd.new 16 "f" true true freshWorld).2.trace = 0 ∧
    closeCount
      (NoStd.dropWrapper 16 ⟨4096⟩ (NoStd.new 16 "f" true true freshWorld).2).trace
      = 0 ∧
    (NoStd.dropWrapper 16 ⟨4096⟩ (NoStd.new 16 "f" true true freshWorld).2).fds
      = [(3, ("f", true))] := by
  decide

/-- C3 counterexample: the claim says constructing with `write = false` on a
non-existent path fails with `OpenFailed` and does not create the file.  At
the concrete input `path = "p"`, `write = false`, `truncate = false`, on a
world with no files, `map` succeeds with the mapped address and the file has
been created (the code passes `O_CREAT` unconditionally). -/
theorem c3_counterexample :
    (NoStd.map 16 "p" false false freshWorld).1 = Except.ok 4096 ∧
    List.lookup "p" (NoStd.map 16 "p" false false freshWorld).2.files = some [] := by
  decide

/-- C3 amended: the backing file is created whenever it is absent,
regardless of the write flag (the open call always passes `O_CREAT`), so
construction without write intent (and without truncation) on a
non-existent path succeeds and creates the file rather than failing with
`OpenFailed`; constructing with write+truncate intent on a non-existent
path succeeds and yields a region of exactly `tsz` bytes backed by a
zero-initialized file. -/
theorem c3_amended_create_always (tsz : Nat) (path : String) (write : Bool)
    (h : 0 < tsz) :
    ((NoStd.map tsz path write false freshWorld).1 = Except.ok 4096 ∧
     (List.lookup path (NoStd.map tsz path write false freshWorld).2.files).isSome) ∧
    ((NoStd.map tsz path true true freshWorld).1 = Except.ok 4096 ∧
     (NoStd.map tsz path true true freshWorld).2.maps = [⟨4096, tsz, 3, path⟩] ∧
     List.lookup path (NoStd.map tsz path true true freshWorld).2.files =
       some (List.replicate tsz 0)) := by
  rw [NoStd.map_fresh_eq tsz path write false h (by simp),
    NoStd.map_fresh_eq tsz path true true h (fun _ => rfl)]
  refine ⟨⟨rfl, ?_⟩, rfl, by simp, ?_⟩ <;>
    simp [List.lookup]

/-- C3 amended witness at `tsz = 16`, `path = "p"`. -/
theorem c3_amended_witness :
    (0 : Nat) < 16 ∧
    (NoStd.map 16 "p" false false freshWorld).1 = Except.ok 4096 ∧
    List.lookup "p" (NoStd.map 16 "p" true true freshWorld).2.files =
      some (List.replicate 16 0) :=
  ⟨by decide,
   (c3_amended_create_always 16 "p" false (by decide)).1.1,
   (c3_amended_create_always 16 "p" false (by decide)).2.2.2⟩

/-- C7: on a fault-free world, for every path, write flag and truncate flag
for which `map` succeeds, the call truncates the backing file to exactly
`tsz` bytes iff the truncate flag is set, and performs exactly one `mmap`
with length `tsz`, protection `PROT_READ` (`write = false`) or
`PROT_READ | PROT_WRITE` (`write = true`), and `MAP_SHARED`: the full
syscall trace is pinned. -/
theorem c7_map_trace (tsz : Nat) (path : String) (write truncate : Bool)
    (h : 0 < tsz)
    (hok : ∃ a, (NoStd.map tsz path write truncate freshWorld).1 = Except.ok a) :
    (NoStd.map tsz path write truncate freshWorld).1 = Except.ok 4096 ∧
    (NoStd.map tsz path write truncate freshWorld).2.trace =
      [Event.eOpen path (if write then 66 else 64) 420 3] ++
      (if truncate then [Event.eTrunc 3 tsz 0] else []) ++
      [Event.eMmap tsz (if write then Nat.lor PROT_READ PROT_WRITE else PROT_READ)
        MAP_SHARED 3 (some 4096)] ∧
    (NoStd.map tsz path write truncate freshWorld).2.maps =
      [⟨4096, tsz, if write then Nat.lor PROT_READ PROT_WRITE else PROT_READ, path⟩] := by
  have h3 : Nat.lor 1 2 = 3 := by decide
  have htw : truncate = true → write = true := by
    intro ht
    subst ht
    cases write
    · exfalso
      rcases hok with ⟨a, ha⟩
      rw [NoStd.map_fresh_ro_trunc_fails tsz path] at ha
      simp at ha
    · rfl
  rw [NoStd.map_fresh_eq tsz path write truncate h htw]
  refine ⟨rfl, ?_, ?_⟩ <;>
    cases write <;>
      simp [PROT_READ, PROT_WRITE, MAP_SHARED, h3]

/-- C7 witness at `tsz = 16`, `path = "p"`, `write = true`,
`truncate = true`. -/
theorem c7_map_trace_witness :
    (0 : Nat) < 16 ∧
    (∃ a, (NoStd.map 16 "p" true true freshWorld).1 = Except.ok a) ∧
    (NoStd.map 16 "p" true true freshWorld).2.trace =
      [Event.eOpen "p" 66 420 3, Event.eTrunc 3 16 0,
       Event.eMmap 16 3 1 3 (some 4096)] :=
  ⟨by decide, ⟨4096, by decide⟩, by
    have := (c7_map_trace 16 "p" true true (by decide) ⟨4096, by decide⟩).2.1
    simpa using this⟩

/-- C10: in the direct syscall backend, requesting a mutable accessor with
`write = false` is never rejected as a configuration error:
`MmapMutWrapper::new` and the builder's `build_mut` (whose write flag
defaults to `false`) return `Ok` whenever the open, truncate and mmap calls
succeed, and the underlying region was mapped with `PROT_READ` only. -/
theorem c10_mut_without_write (tsz : Nat) (path : String) (truncate : Bool)
    (h : 0 < tsz)
    (hok : ∃ a, (NoStd.map tsz path false truncate freshWorld).1 = Except.ok a) :
    (NoStd.newMut tsz path false truncate freshWorld).1 = Except.ok ⟨4096⟩ ∧
    (((NoStd.MmapWrapperBuilder.mk0 path).setTruncate truncate).buildMut tsz
        freshWorld).1 = Except.ok ⟨4096⟩ ∧
    (NoStd.newMut tsz path false truncate freshWorld).2.maps =
      [⟨4096, tsz, PROT_READ, path⟩] := by
  have htf : truncate = false := by
    cases truncate
    · rfl
    · exfalso
      rcases hok with ⟨a, ha⟩
      rw [NoStd.map_fresh_ro_trunc_fails tsz path] at ha
      simp at ha
  subst htf
  have hb : ((NoStd.MmapWrapperBuilder.mk0 path).setTruncate false) =
      ⟨path, false, false⟩ := rfl
  refine ⟨?_, ?_, ?_⟩ <;>
    simp [NoStd.newMut, NoStd.MmapWrapperBuilder.buildMut, hb,
      NoStd.map_fresh_eq tsz path false false h (by simp), PROT_READ]

/-- C10 witness at `tsz = 16`, `path = "p"`, `truncate = false`. -/
theorem c10_mut_without_write_witness :
    ((0 : Nat) < 16 ∧
      ∃ a, (NoStd.map 16 "p" false false freshWorld).1 = Except.ok a) ∧
    (NoStd.newMut 16 "p" false false freshWorld).1 = Except.ok ⟨4096⟩ :=
  ⟨⟨by decide, ⟨4096, by decide⟩⟩,
   (c10_mut_without_write 16 "p" false (by decide) ⟨4096, by decide⟩).1⟩

/-- C4: every mapping-time error of the direct syscall backend carries the
code reported by the failing call: a failed open propagates the negative
value the open call returned, a failed truncate propagates the negative
value the resize call returned, and a failed mapping (the `MAP_FAILED`
sentinel) is signaled as `Err(-1)`. -/
theorem c4_error_codes (tsz : Nat) (path : String) (write truncate : Bool)
    (e e' : Int) (he : e < 0) (he' : e' < 0) :
    (NoStd.map tsz path write truncate (mkWorld [] [some e] [] [])).1 =
      Except.error e ∧
    (NoStd.map tsz path write true (mkWorld [] [] [some e'] [])).1 =
      Except.error e' ∧
    (NoStd.map tsz path write truncate (mkWorld [] [] [] [true])).1 =
      Except.error (-1) := by
  have h1 : Nat.lor 64 0 = 64 := by decide
  have h2 : Nat.lor 64 2 = 66 := by decide
  have h4 : Nat.testBit 64 6 = true := by decide
  have h5 : Nat.testBit 66 6 = true := by decide
  have h6 : (Nat.land 64 3 != 0) = false := by decide
  have h7 : (Nat.land 66 3 != 0) = true := by decide
  refine ⟨?_, ?_, ?_⟩ <;>
    cases write <;> cases truncate <;>
      simp [NoStd.map, NoStd.mapMmapPart, sysOpen, sysFtruncate, sysMmap,
        sysClose, mkWorld, updateFile, O_CREAT, O_RDWR, O_RDONLY,
        PROT_READ, PROT_WRITE, MAP_SHARED, List.lookup, he, he',
        h1, h2, h4, h5, h6, h7]

/-- C4 witness at `tsz = 16`, `path = "p"`, `write = true`,
`truncate = true`, open error `-13`, truncate error `-9`. -/
theorem c4_error_codes_witness :
    ((-13 : Int) < 0 ∧ (-9 : Int) < 0) ∧
    (NoStd.map 16 "p" true true (mkWorld [] [some (-13)] [] [])).1 =
      Except.error (-13) ∧
    (NoStd.map 16 "p" true true (mkWorld [] [] [some (-9)] [])).1 =
      Except.error (-9) :=
  ⟨⟨by decide, by decide⟩,
   (c4_error_codes 16 "p" true true (-13) (-9) (by decide) (by decide)).1,
   (c4_error_codes 16 "p" true true (-13) (-9) (by decide) (by decide)).2.1⟩

/-- The mmap model never changes the descriptor table. -/
theorem sysMmap_fds (w : World) (len prot flags : Nat) (fd : Int) :
    ((sysMmap w len prot flags fd).2).fds = w.fds := by
  simp only [sysMmap]
  split
  · rfl
  · split
    · rfl
    · split
      · rfl
      · split <;> rfl

/-- The ftruncate model never changes the descriptor table. -/
theorem sysFtruncate_fds (w : World) (fd : Int) (len : Nat) :
    ((sysFtruncate w fd len).2).fds = w.fds := by
  simp only [sysFtruncate]
  split
  · rfl
  · split
    · rfl
    · split <;> rfl

/-- Closing `fd` on a world whose only open descriptors are `fd` leaves no
open descriptor. -/
theorem sysClose_fds_only (w : World) (fd : Int)
    (h : (w.fds.filter fun q => !(q.1 == fd)) = []) :
    ((sysClose w fd).2).fds = [] := by
  simp only [sysClose]
  split
  · exact h
  · rcases hw : w.fds with _ | ⟨q, r⟩
    · simp [hw]
    · exfalso
      rw [hw] at h
      have hq : q.1 = fd := by
        by_contra hne
        have : (q :: r).filter (fun q => !(q.1 == fd)) =
            q :: r.filter fun q => !(q.1 == fd) :=
          List.filter_cons_of_pos (by simp [hne])
        rw [this] at h
        exact List.cons_ne_nil _ _ h
      rename_i hns
      rw [hw, List.lookup_cons] at hns
      simp [← hq] at hns

/-- If the mmap tail of `map` returns an error and every open descriptor of
the incoming world is the one being mapped, then no descriptor stays open. -/
theorem mapMmapPart_err_fds (tsz : Nat) (write : Bool) (fd : Int) (w : World)
    (c : Int) (hf : (w.fds.filter fun q => !(q.1 == fd)) = [])
    (herr : (NoStd.mapMmapPart tsz write fd w).1 = Except.error c) :
    ((NoStd.mapMmapPart tsz write fd w).2).fds = [] := by
  simp only [NoStd.mapMmapPart] at herr ⊢
  rcases hm : (sysMmap w tsz
      (if write then Nat.lor PROT_READ PROT_WRITE else PROT_READ)
      MAP_SHARED fd).1 with _ | a
  · simp only [hm]
    apply sysClose_fds_only
    rw [sysMmap_fds]
    exact hf
  · rw [hm] at herr
    simp at herr

/-- If the truncate-then-mmap tail of `map` (its body after a non-negative
open result, with `w1` the world after the open call and `fd` the returned
descriptor) errors, and every open descriptor of `w1` is `fd`, then no
descriptor stays open. -/
theorem truncPhase_err_fds (tsz : Nat) (write truncate : Bool) (fd : Int)
    (w1 : World) (c : Int) (hf : (w1.fds.filter fun q => !(q.1 == fd)) = [])
    (herr : (if truncate then
        (if (sysFtruncate w1 fd tsz).1 < 0 then
          (Except.error (sysFtruncate w1 fd tsz).1,
           (sysClose (sysFtruncate w1 fd tsz).2 fd).2)
         else NoStd.mapMmapPart tsz write fd (sysFtruncate w1 fd tsz).2)
      else NoStd.mapMmapPart tsz write fd w1).1 = Except.error c) :
    ((if truncate then
        (if (sysFtruncate w1 fd tsz).1 < 0 then
          (Except.error (sysFtruncate w1 fd tsz).1,
           (sysClose (sysFtruncate w1 fd tsz).2 fd).2)
         else NoStd.mapMmapPart tsz write fd (sysFtruncate w1 fd tsz).2)
      else NoStd.mapMmapPart tsz write fd w1) :
      Except Int Nat × World).2.fds = [] := by
  cases truncate
  · rw [if_neg (by decide)] at herr ⊢
    exact mapMmapPart_err_fds tsz write fd w1 c hf herr
  · rw [if_pos rfl] at herr ⊢
    by_cases ht : (sysFtruncate w1 fd tsz).1 < 0
    · rw [if_pos ht]
      apply sysClose_fds_only
      rw [sysFtruncate_fds]
      exact hf
    · rw [if_neg ht] at herr ⊢
      exact mapMmapPart_err_fds tsz write fd (sysFtruncate w1 fd tsz).2 c
        (by rw [sysFtruncate_fds]; exact hf) herr

/-- C5: in the direct syscall backend, every error return of `map` leaves no
descriptor open: whatever single-call outcomes the environment chooses for
open, truncate and mmap, if `map` returns an error then the final world has
no open descriptors (the opened descriptor, if any, was closed before the
error propagated). -/
theorem c5_error_leaves_no_fd (tsz : Nat) (path : String) (write truncate : Bool)
    (files : List (String × List Nat)) (of tf : Option Int) (mf : Bool) (c : Int)
    (herr : (NoStd.map tsz path write truncate
      (mkWorld files [of] [tf] [mf])).1 = Except.error c) :
    (NoStd.map tsz path write truncate (mkWorld files [of] [tf] [mf])).2.fds = [] := by
  revert herr
  rcases of with _ | e
  · simp only [NoStd.map, sysOpen, mkWorld, List.headD_cons, List.tail_cons]
    cases hex : (List.lookup path files).isSome
    · cases hbit : Nat.testBit (Nat.lor O_CREAT (if write then O_RDWR else O_RDONLY)) 6
      · simp [hex, hbit]
      · simp only [hex, hbit]
        simp
        refine fun herr => truncPhase_err_fds _ _ _ _ _ _ ?_ herr
        simp
    · simp only [hex]
      simp
      refine fun herr => truncPhase_err_fds _ _ _ _ _ _ ?_ herr
      simp
  · simp only [NoStd.map, sysOpen, mkWorld, List.headD_cons, List.tail_cons]
    by_cases he : e < 0
    · simp [he]
    · simp [he]
      refine fun herr => truncPhase_err_fds _ _ _ _ _ _ ?_ herr
      rfl

/-- C5 witness: a concrete truncate failure closes the descriptor and
leaves no open descriptor behind. -/
theorem c5_error_leaves_no_fd_witness :
    (NoStd.map 16 "p" true true (mkWorld [] [none] [some (-9)] [false])).1 =
      Except.error (-9) ∧
    (NoStd.map 16 "p" true true (mkWorld [] [none] [some (-9)] [false])).2.fds = [] :=
  ⟨by decide,
   c5_error_leaves_no_fd 16 "p" true true [] none (some (-9)) false (-9) (by decide)⟩

/-- C6 counterexample: the claim says `make_mut` returns an error when the
backend cannot escalate permissions (e.g. the region was mapped read-only)
and never yields a writable view over a non-escalated region.  At the
concrete input below, the `no_std` backend maps a region read-only
(`write = false`, protection `PROT_READ`), yet `make_mut` hands back a
mutable accessor over the same raw address without any error and without
any new mapping call (no escalation happened: the mmap event count is
unchanged, the only appended event is a `munmap`). -/
theorem c6_counterexample :
    (NoStd.new 16 "q" false false freshWorld).1 = Except.ok ⟨4096⟩ ∧
    (NoStd.new 16 "q" false false freshWorld).2.maps = [⟨4096, 16, 1, "q"⟩] ∧
    (NoStd.makeMut 16 ⟨4096⟩ (NoStd.new 16 "q" false false freshWorld).2).1 =
      ⟨4096⟩ ∧
    mmapEventCount
      (NoStd.makeMut 16 ⟨4096⟩ (NoStd.new 16 "q" false false freshWorld).2).2.trace
      = 1 := by
  decide

/-- C6 amended: `make_mut` consumes the read-only accessor and produces a
mutable accessor over the same underlying bytes; in the `memmap2`-backed
std backend it delegates to the external capability's re-mapping operation
and propagates its error, but in the direct syscall backend it is
infallible: it returns a mutable wrapper over the same raw pointer without
escalating the region's permissions (performing no new mapping call — and,
because the consumed wrapper is dropped, after unmapping the region). -/
theorem c6_amended_make_mut :
    (∀ (esc : Memmap2.Region → Except Int Memmap2.Region)
        (m : LibStd.MmapWrapper) (e : Int),
      esc m.raw = Except.error e → LibStd.makeMut esc m = Except.error e) ∧
    (∀ (esc : Memmap2.Region → Except Int Memmap2.Region)
        (m : LibStd.MmapWrapper) (r : Memmap2.Region),
      esc m.raw = Except.ok r → LibStd.makeMut esc m = Except.ok ⟨r⟩) ∧
    (∀ (tsz : Nat) (m : NoStd.MmapWrapper) (w : World),
      (NoStd.makeMut tsz m w).1.raw = m.raw ∧
      mmapEventCount (NoStd.makeMut tsz m w).2.trace = mmapEventCount w.trace) := by
  refine ⟨?_, ?_, ?_⟩
  · intro esc m e h
    simp [LibStd.makeMut, h]
  · intro esc m r h
    simp [LibStd.makeMut, h]
  · intro tsz m w
    refine ⟨rfl, ?_⟩
    simp only [NoStd.makeMut, NoStd.dropWrapper]
    split
    · simp only [sysMunmap]
      split <;> simp [mmapEventCount, List.filter_append]
    · rfl

/-- C6 amended witness: a failing escalation propagates its error, a
successful one wraps its region, and the `no_std` `make_mut` keeps the raw
pointer. -/
theorem c6_amended_make_mut_witness :
    LibStd.makeMut (fun _ => Except.error (-13)) ⟨⟨4096, 16⟩⟩ =
      Except.error (-13) ∧
    LibStd.makeMut (fun r => Except.ok r) ⟨⟨4096, 16⟩⟩ = Except.ok ⟨⟨4096, 16⟩⟩ ∧
    (NoStd.makeMut 16 ⟨4096⟩ freshWorld).1.raw = 4096 :=
  ⟨c6_amended_make_mut.1 (fun _ => Except.error (-13)) ⟨⟨4096, 16⟩⟩ (-13) rfl,
   c6_amended_make_mut.2.1 (fun r => Except.ok r) ⟨⟨4096, 16⟩⟩ ⟨4096, 16⟩ rfl,
   (c6_amended_make_mut.2.2 16 ⟨4096⟩ freshWorld).1⟩

/-- Cloning a singleton Arc heap `n` times adds `n` to the strong count and
releases nothing. -/
theorem cloneN_single (id nid : Nat) (c : Nat) (v : Memmap2.Region)
    (rel : List Memmap2.Region) (n : Nat) :
    Memmap2.cloneN ⟨id⟩ ⟨[(id, (c, v))], nid, rel⟩ n =
      ⟨[(id, (c + n, v))], nid, rel⟩ := by
  induction n with
  | zero => rfl
  | succ k ih =>
      simp only [Memmap2.cloneN, ih, Memmap2.clone, Memmap2.arcClone,
        List.map_cons, List.map_nil, beq_self_eq_true, if_true]
      rfl

/-- Dropping `j` of the owners of a singleton Arc heap, while at least one
owner remains, subtracts `j` from the strong count and releases nothing. -/
theorem dropN_single (id nid : Nat) (c : Nat) (v : Memmap2.Region)
    (rel : List Memmap2.Region) (j : Nat) (hj : j < c) :
    Memmap2.dropN ⟨id⟩ ⟨[(id, (c, v))], nid, rel⟩ j =
      ⟨[(id, (c - j, v))], nid, rel⟩ := by
  induction j with
  | zero => rfl
  | succ k ih =>
      have hk : k < c := Nat.lt_of_succ_lt hj
      have h2 : ¬(c - k ≤ 1) := by omega
      have hlk : List.lookup id [(id, (c - k, v))] = some (c - k, v) := by
        simp [List.lookup]
      simp only [Memmap2.dropN, ih hk, Memmap2.dropWrapper, Memmap2.arcDrop, hlk]
      rw [if_neg h2]
      have h3 : c - k - 1 = c - (k + 1) := by omega
      simp [h3]

/-- Dropping the last owner of a singleton Arc heap removes the cell and
releases the region. -/
theorem dropLast_single (id nid : Nat) (v : Memmap2.Region)
    (rel : List Memmap2.Region) :
    Memmap2.dropWrapper ⟨[(id, (1, v))], nid, rel⟩ ⟨id⟩ =
      ⟨[], nid, rel ++ [v]⟩ := by
  simp [Memmap2.dropWrapper, Memmap2.arcDrop, List.lookup]

/-- C8: in the Arc-backed `memmap2` variant, `clone` produces an accessor
with the same shared cell whose `get_inner` yields the same address;
starting from one accessor and `n` clones (`n + 1` owners), dropping any
`j ≤ n` of them releases nothing and leaves `n + 1 - j` owners, and
dropping all `n + 1` owners releases the region exactly once. -/
theorem c8_clone_refcount (region : Memmap2.Region) (n j : Nat) (hj : j ≤ n) :
    (Memmap2.clone (Memmap2.new Memmap2.emptyHeap region).2
        (Memmap2.new Memmap2.emptyHeap region).1).1.rawId =
      (Memmap2.new Memmap2.emptyHeap region).1.rawId ∧
    Memmap2.getInner
        (Memmap2.clone (Memmap2.new Memmap2.emptyHeap region).2
          (Memmap2.new Memmap2.emptyHeap region).1).2
        (Memmap2.clone (Memmap2.new Memmap2.emptyHeap region).2
          (Memmap2.new Memmap2.emptyHeap region).1).1 =
      Memmap2.getInner (Memmap2.new Memmap2.emptyHeap region).2
        (Memmap2.new Memmap2.emptyHeap region).1 ∧
    (Memmap2.dropN (Memmap2.new Memmap2.emptyHeap region).1
        (Memmap2.cloneN (Memmap2.new Memmap2.emptyHeap region).1
          (Memmap2.new Memmap2.emptyHeap region).2 n) j).released = [] ∧
    List.lookup (Memmap2.new Memmap2.emptyHeap region).1.rawId
        (Memmap2.dropN (Memmap2.new Memmap2.emptyHeap region).1
          (Memmap2.cloneN (Memmap2.new Memmap2.emptyHeap region).1
            (Memmap2.new Memmap2.emptyHeap region).2 n) j).cells =
      some (n + 1 - j, region) ∧
    (Memmap2.dropN (Memmap2.new Memmap2.emptyHeap region).1
        (Memmap2.cloneN (Memmap2.new Memmap2.emptyHeap region).1
          (Memmap2.new Memmap2.emptyHeap region).2 n) (n + 1)).released =
      [region] := by
  have hnew : Memmap2.new Memmap2.emptyHeap region =
      (⟨0⟩, ⟨[(0, (1, region))], 1, []⟩) := rfl
  have hclone : Memmap2.cloneN ⟨0⟩ ⟨[(0, (1, region))], 1, []⟩ n =
      ⟨[(0, (1 + n, region))], 1, []⟩ := cloneN_single 0 1 1 region [] n
  have hdropj : Memmap2.dropN ⟨0⟩ ⟨[(0, (1 + n, region))], 1, []⟩ j =
      ⟨[(0, (1 + n - j, region))], 1, []⟩ :=
    dropN_single 0 1 (1 + n) region [] j (by omega)
  have hdropn : Memmap2.dropN ⟨0⟩ ⟨[(0, (1 + n, region))], 1, []⟩ n =
      ⟨[(0, (1, region))], 1, []⟩ := by
    have h := dropN_single 0 1 (1 + n) region [] n (by omega)
    rwa [show 1 + n - n = 1 from by omega] at h
  refine ⟨rfl, rfl, ?_, ?_, ?_⟩
  · rw [hnew]
    simp only [hclone, hdropj]
  · rw [hnew]
    simp only [hclone, hdropj]
    simp [List.lookup]
    omega
  · rw [hnew]
    simp only [hclone, Memmap2.dropN, hdropn, dropLast_single]
    rfl

/-- C8 witness at `n = 2` clones, `j = 1` drops, a concrete region. -/
theorem c8_clone_refcount_witness :
    (1 : Nat) ≤ 2 ∧
    (Memmap2.dropN (Memmap2.new Memmap2.emptyHeap ⟨4096, 16⟩).1
        (Memmap2.cloneN (Memmap2.new Memmap2.emptyHeap ⟨4096, 16⟩).1
          (Memmap2.new Memmap2.emptyHeap ⟨4096, 16⟩).2 2) 1).released = [] ∧
    (Memmap2.dropN (Memmap2.new Memmap2.emptyHeap ⟨4096, 16⟩).1
        (Memmap2.cloneN (Memmap2.new Memmap2.emptyHeap ⟨4096, 16⟩).1
          (Memmap2.new Memmap2.emptyHeap ⟨4096, 16⟩).2 2) 3).released =
      [⟨4096, 16⟩] :=
  ⟨by decide,
   (c8_clone_refcount ⟨4096, 16⟩ 2 1 (by decide)).2.2.1,
   (c8_clone_refcount ⟨4096, 16⟩ 2 1 (by decide)).2.2.2.2⟩

/-- C9: writing a value through the location returned by the mutable
accessor's `get_inner` and immediately reading back through the same
accessor's `get_inner` yields exactly the written value. -/
theorem c9_write_read_roundtrip (α : Type) (h : Memmap2.ArcHeap)
    (w : Memmap2.MmapMutWrapper) (mem : Nat → α) (v : α) :
    memRead (memWrite mem (Memmap2.getInnerMut h w) v)
      (Memmap2.getInnerMut h w) = v := by
  simp [memRead, memWrite]

end MmapVerify
